import Mathlib

/-!
Verification of `src/data/xlsx_to_sql.py` (election-api-sqlite).

The program is a single linear batch job: it checks that the Excel workbook
path is a regular file, parses every sheet (`pd.read_excel(..., sheet_name=None)`,
an ordered mapping from sheet name to data frame), opens (creating if absent)
a SQLite database, and for each sheet writes the data frame to a table named
`str(sheet_name).strip().replace(" ", "_")` with `if_exists="replace"` and
`index=False`, closing the connection in a `finally` block.

The shallow embedding below models:
  * a data frame / sheet as a header (column names, in order) plus a list of
    rows (in order); cell values are abstracted as strings;
  * the workbook as an ordered association list from sheet name to sheet,
    mirroring the insertion-ordered dict returned by the reader;
  * the SQLite file as an ordered association list from table name to table
    contents; `to_sql(..., if_exists="replace")` drops any existing table of
    that name and creates a fresh one (modelled by erasing the entry and
    appending the new one), and `index=False` means the stored table is
    exactly the data frame, with no extra index column;
  * the filesystem state of the source path (missing, a directory, or a file
    whose parse either yields a workbook or fails), because
    `Path.is_file()` is true exactly for existing regular files;
  * fallibility of a single table write by a Boolean oracle `writeOk`
    (e.g. disk full, or a table name the database layer rejects), the write
    leaving the database unchanged when it fails;
  * the outcome as the raised error (if any), the final state of the database
    file (`none` when the file was never created), and whether the connection
    was opened and closed.
-/

/-- A cell value, abstracted as a string. -/
abbrev Cell := String

/-- A sheet (equivalently, the data frame read from it): the inferred header
row, in column order, and the data rows, in sheet order. -/
structure Sheet where
  header : List String
  rows : List (List Cell)
deriving DecidableEq, Repr

/-- A table in the destination database has the same shape as a sheet:
`index=False` means exactly the data frame columns and rows are stored. -/
abbrev Table := Sheet

/-- The workbook returned by `pd.read_excel(excel_path, sheet_name=None)`:
an ordered mapping from sheet name to sheet, in file-defined order. -/
abbrev Workbook := List (String × Sheet)

/-- The contents of the SQLite database file: an ordered mapping from table
name to table. -/
abbrev Database := List (String × Table)

/-- `SELECT`-style lookup of a table by name. -/
def dbLookup (db : Database) (n : String) : Option Table :=
  match db with
  | [] => none
  | (m, t) :: rest => if m = n then some t else dbLookup rest n

/-- The table names present in the database. -/
def dbNames (db : Database) : List String :=
  db.map Prod.fst

/-- `df.to_sql(name, conn, if_exists="replace", index=False)`: drop any
existing table named `n` and create a fresh table `n` holding exactly `t`. -/
def dbSetTable (db : Database) (n : String) (t : Table) : Database :=
  db.filter (fun p => !(p.1 == n)) ++ [(n, t)]

/-- Embedding of Python `str.strip()`: remove leading and trailing
whitespace characters. -/
def pyStrip (l : List Char) : List Char :=
  ((l.dropWhile Char.isWhitespace).reverse.dropWhile Char.isWhitespace).reverse

/-- Embedding of Python `str.replace(old, new)` for a single-character
pattern, the only form the source uses: every occurrence of the character
`old` is replaced by `new`. -/
def pyReplaceChar (old new : Char) : List Char → List Char
  | [] => []
  | c :: cs => (if c = old then new else c) :: pyReplaceChar old new cs

/-- Line 28 of the source: `table_name = str(sheet_name).strip().replace(" ", "_")`. -/
def tableName (s : String) : String :=
  ⟨pyReplaceChar ' ' '_' (pyStrip s.data)⟩

/-- The filesystem state of the workbook path: absent, an existing directory
(or other non-regular entry), or a regular file whose parse either fails
(`none`) or yields a workbook. -/
inductive SourceKind where
  | missing
  | directory
  | file (parsed : Option Workbook)
deriving DecidableEq, Repr

/-- The source path together with its resolved absolute form
(`excel_path.resolve()`). -/
structure Source where
  resolved : String
  kind : SourceKind
deriving DecidableEq, Repr

/-- `Path.is_file()`: true exactly when the path names an existing regular
file. -/
def isFile : SourceKind → Bool
  | .file _ => true
  | _ => false

/-- `pd.read_excel(excel_path, sheet_name=None)` on an existing regular
file: the parsed workbook, or `none` on a parse failure. -/
def readWorkbook : SourceKind → Option Workbook
  | .file p => p
  | _ => none

/-- The errors the program can raise. -/
inductive ConvError where
  | sourceNotFound (resolvedPath : String)
  | parseFailure
  | writeFailure (sheetName : String)
deriving DecidableEq, Repr

deriving instance DecidableEq for Except

/-- The observable outcome of one run: the result (success or raised error),
the state of the database file afterwards (`none` when it was never
created), and whether the SQLite connection was opened and closed. -/
structure Outcome where
  result : Except ConvError Unit
  dbFile : Option Database
  connOpened : Bool
  connClosed : Bool
deriving DecidableEq, Repr

/-- The per-sheet loop (lines 26-33 of the source): for each sheet in
workbook order, derive the table name and write the table; a failing write
(`writeOk` returning `false` for that table name and sheet) leaves the
database unchanged, aborts the loop, and reports the failing sheet's name. -/
def runSheets (writeOk : String → Sheet → Bool) :
    Database → Workbook → Database × Option String
  | db, [] => (db, none)
  | db, (sname, sh) :: rest =>
    let t := tableName sname
    if writeOk t sh then runSheets writeOk (dbSetTable db t sh) rest
    else (db, some sname)

namespace XlsxToSql

/-- `main` of `src/data/xlsx_to_sql.py`:
check `is_file`, parse the workbook, open the connection
(`sqlite3.connect` creates the database file if absent, modelled by
`db0.getD []`), run the per-sheet loop, and close the connection in the
`finally` block (so the connection is closed on the success path and on the
write-failure path alike). -/
def main (src : Source) (db0 : Option Database)
    (writeOk : String → Sheet → Bool) : Outcome :=
  if isFile src.kind then
    match readWorkbook src.kind with
    | none =>
      { result := .error .parseFailure, dbFile := db0
        connOpened := false, connClosed := false }
    | some wb =>
      let db := db0.getD []
      match runSheets writeOk db wb with
      | (db1, none) =>
        { result := .ok (), dbFile := some db1
          connOpened := true, connClosed := true }
      | (db1, some s) =>
        { result := .error (.writeFailure s), dbFile := some db1
          connOpened := true, connClosed := true }
  else
    { result := .error (.sourceNotFound src.resolved), dbFile := db0
      connOpened := false, connClosed := false }

end XlsxToSql

/-- The database contents after a run, reading an uncreated file as empty. -/
def outDb (o : Outcome) : Database :=
  o.dbFile.getD []

/-- Writing a prefix of the workbook with every write succeeding:
`runSheets` specialises to this fold. -/
def writeAll (db : Database) (wb : Workbook) : Database :=
  wb.foldl (fun d p => dbSetTable d (tableName p.1) p.2) db

/-- The table written last for name `n` by the sheets of `wb`, if any
(the last sheet in workbook order whose derived table name is `n`). -/
def lastWrite : Workbook → String → Option Table
  | [], _ => none
  | (s, sh) :: rest, n =>
    match lastWrite rest n with
    | some t => some t
    | none => if tableName s = n then some sh else none

/-- Observational equality of database files: both absent, or both present
and answering every lookup identically. -/
def obsEqOpt : Option Database → Option Database → Prop
  | none, none => True
  | some d1, some d2 => ∀ n, dbLookup d1 n = dbLookup d2 n
  | _, _ => False

/-- The table name rule as the spec words it: the sheet name with
surrounding whitespace trimmed and each remaining (hence internal) space
character replaced by an underscore, and nothing else changed — no case
folding, no escaping of database-unsafe characters, every non-space
character kept as it is. -/
def specTableName (s : String) : String :=
  ⟨(pyStrip s.data).map (fun c => if c = ' ' then '_' else c)⟩

/-- Sample sheet used by concrete witnesses below. -/
def shA : Sheet := ⟨["c1"], [["a1"]]⟩

/-- Second sample sheet, with different contents. -/
def shB : Sheet := ⟨["c1"], [["b1"], ["b2"]]⟩

/-- Third sample sheet, with two columns and three rows. -/
def shC : Sheet := ⟨["x", "y"], [["1", "2"], ["3", "4"], ["5", "6"]]⟩

/-- A write oracle under which every table write succeeds. -/
def wkAll : String → Sheet → Bool := fun _ _ => true

/-- A write oracle that fails exactly on the table derived from sheet
`"Bad"` (for exercising the write-failure path). -/
def wkBad : String → Sheet → Bool := fun n _ => !(n == "Bad")

/-! ### Association-list lemmas about the database model -/

theorem dbLookup_append (a b : Database) (n : String) :
    dbLookup (a ++ b) n =
      match dbLookup a n with
      | some t => some t
      | none => dbLookup b n := by
  induction a with
  | nil => simp [dbLookup]
  | cons p rest ih =>
    obtain ⟨m, t⟩ := p
    by_cases h : m = n <;> simp [dbLookup, h, ih]

theorem dbLookup_filter_self (db : Database) (n : String) :
    dbLookup (db.filter (fun p => !(p.1 == n))) n = none := by
  induction db with
  | nil => rfl
  | cons p rest ih =>
    obtain ⟨a, t⟩ := p
    by_cases h : a = n
    · simp [List.filter_cons, h, ih]
    · simp [List.filter_cons, dbLookup, h, ih]

theorem dbLookup_filter_ne (db : Database) (n m : String) :
    dbLookup (db.filter (fun p => !(p.1 == n))) m =
      if m = n then none else dbLookup db m := by
  by_cases hmn : m = n
  · subst hmn
    simp [dbLookup_filter_self]
  · simp only [if_neg hmn]
    induction db with
    | nil => rfl
    | cons p rest ih =>
      obtain ⟨a, t⟩ := p
      by_cases han : a = n
      · subst han
        simp [List.filter_cons, dbLookup, Ne.symm hmn, ih]
      · by_cases ham : a = m <;> simp [List.filter_cons, dbLookup, han, ham, hmn, ih]

theorem dbLookup_setTable (db : Database) (n : String) (t : Table) (m : String) :
    dbLookup (dbSetTable db n t) m = if m = n then some t else dbLookup db m := by
  unfold dbSetTable
  rw [dbLookup_append, dbLookup_filter_ne]
  by_cases h : m = n
  · simp [h, dbLookup]
  · cases hdb : dbLookup db m <;> simp [h, dbLookup, hdb, Ne.symm h]

theorem dbLookup_mem_dbNames {db : Database} {n : String} {t : Table}
    (h : dbLookup db n = some t) : n ∈ dbNames db := by
  induction db with
  | nil => simp [dbLookup] at h
  | cons p rest ih =>
    obtain ⟨m, u⟩ := p
    by_cases hm : m = n
    · simp [dbNames, hm]
    · simp [dbLookup, hm] at h
      simp [dbNames] at ih ⊢
      exact Or.inr (ih h)

theorem dbSetTable_of_not_mem {db : Database} {n : String} (t : Table)
    (h : n ∉ dbNames db) : dbSetTable db n t = db ++ [(n, t)] := by
  unfold dbSetTable
  congr 1
  rw [List.filter_eq_self]
  intro p hp
  simp only [Bool.not_eq_true', beq_eq_false_iff_ne, ne_eq]
  intro he
  exact h (by simpa [dbNames, he] using List.mem_map_of_mem Prod.fst hp)

theorem dbNames_setTable_nodup (db : Database) (n : String) (t : Table)
    (h : (dbNames db).Nodup) : (dbNames (dbSetTable db n t)).Nodup := by
  unfold dbSetTable dbNames
  rw [List.map_append]
  simp only [List.map_cons, List.map_nil]
  refine List.Nodup.append ?_ (by simp) ?_
  · exact (List.Sublist.map Prod.fst (List.filter_sublist db)).nodup h
  · rw [List.disjoint_singleton]
    intro hmem
    rcases List.mem_map.mp hmem with ⟨p, hp, hfst⟩
    rcases List.mem_filter.mp hp with ⟨_, hcond⟩
    simp only [Bool.not_eq_true', beq_eq_false_iff_ne, ne_eq] at hcond
    exact hcond hfst

theorem mem_dbNames_setTable {db : Database} {n m : String} {t : Table}
    (h : m ∈ dbNames (dbSetTable db n t)) : m ∈ dbNames db ∨ m = n := by
  unfold dbSetTable dbNames at h
  rw [List.map_append, List.mem_append] at h
  rcases h with h | h
  · rcases List.mem_map.mp h with ⟨p, hp, hfst⟩
    exact Or.inl (hfst ▸ List.mem_map_of_mem Prod.fst (List.filter_sublist db |>.mem hp))
  · simp at h
    exact Or.inr h

/-! ### The per-sheet loop -/

theorem writeAll_nil (db : Database) : writeAll db [] = db := rfl

theorem writeAll_cons (db : Database) (s : String) (sh : Sheet) (rest : Workbook) :
    writeAll db ((s, sh) :: rest) = writeAll (dbSetTable db (tableName s) sh) rest := rfl

theorem dbLookup_writeAll (wb : Workbook) (db : Database) (n : String) :
    dbLookup (writeAll db wb) n =
      match lastWrite wb n with
      | some t => some t
      | none => dbLookup db n := by
  induction wb generalizing db with
  | nil => simp [writeAll, lastWrite]
  | cons p rest ih =>
    obtain ⟨s, sh⟩ := p
    rw [writeAll_cons, ih]
    cases hlw : lastWrite rest n with
    | some t => simp [lastWrite, hlw]
    | none =>
      by_cases h : tableName s = n
      · simp [lastWrite, hlw, dbLookup_setTable, h]
      · simp [lastWrite, hlw, dbLookup_setTable, h, Ne.symm h]

theorem runSheets_eq (wk : String → Sheet → Bool) (db : Database) (wb : Workbook) :
    runSheets wk db wb =
      (writeAll db (wb.takeWhile fun p => wk (tableName p.1) p.2),
       ((wb.dropWhile fun p => wk (tableName p.1) p.2).head?).map Prod.fst) := by
  induction wb generalizing db with
  | nil => rfl
  | cons p rest ih =>
    obtain ⟨s, sh⟩ := p
    by_cases h : wk (tableName s) sh = true
    · simp [runSheets, h, List.takeWhile_cons, List.dropWhile_cons, ih, writeAll_cons]
    · rw [Bool.not_eq_true] at h
      simp [runSheets, h, List.takeWhile_cons, List.dropWhile_cons, writeAll_nil]

theorem runSheets_all_ok {wk : String → Sheet → Bool} {wb : Workbook} (db : Database)
    (hok : ∀ p ∈ wb, wk (tableName p.1) p.2 = true) :
    runSheets wk db wb = (writeAll db wb, none) := by
  rw [runSheets_eq]
  rw [List.takeWhile_eq_self_iff.mpr hok, List.dropWhile_eq_nil_iff.mpr hok]
  rfl

theorem runSheets_ok_of_snd_none {wk : String → Sheet → Bool} {wb : Workbook} {db : Database}
    (h : (runSheets wk db wb).2 = none) :
    ∀ p ∈ wb, wk (tableName p.1) p.2 = true := by
  rw [runSheets_eq] at h
  simp only at h
  rw [Option.map_eq_none', List.head?_eq_none_iff, List.dropWhile_eq_nil_iff] at h
  exact h

theorem runSheets_append_fail {wk : String → Sheet → Bool} {pre : Workbook}
    (db : Database) (sk : String) (shk : Sheet) (post : Workbook)
    (hpre : ∀ p ∈ pre, wk (tableName p.1) p.2 = true)
    (hfail : wk (tableName sk) shk = false) :
    runSheets wk db (pre ++ (sk, shk) :: post) = (writeAll db pre, some sk) := by
  induction pre generalizing db with
  | nil => simp [runSheets, hfail, writeAll_nil]
  | cons p rest ih =>
    obtain ⟨s, sh⟩ := p
    have hs : wk (tableName s) sh = true := hpre _ (List.mem_cons_self _ _)
    rw [List.cons_append, writeAll_cons]
    simp only [runSheets, hs, if_true]
    exact ih _ (fun q hq => hpre q (List.mem_cons_of_mem _ hq))

/-! ### Last-writer and name lemmas -/

theorem lastWrite_eq_none {wb : Workbook} {n : String}
    (h : ∀ p ∈ wb, tableName p.1 ≠ n) : lastWrite wb n = none := by
  induction wb with
  | nil => rfl
  | cons p rest ih =>
    obtain ⟨s, sh⟩ := p
    have hrest : lastWrite rest n = none :=
      ih (fun q hq => h q (List.mem_cons_of_mem _ hq))
    simp [lastWrite, hrest, h (s, sh) (List.mem_cons_self _ _)]

theorem lastWrite_append (a b : Workbook) (n : String) :
    lastWrite (a ++ b) n =
      match lastWrite b n with
      | some t => some t
      | none => lastWrite a n := by
  induction a with
  | nil =>
    cases h : lastWrite b n <;> simp [lastWrite, h]
  | cons p rest ih =>
    obtain ⟨s, sh⟩ := p
    rw [List.cons_append]
    show (match lastWrite (rest ++ b) n with
      | some t => some t
      | none => if tableName s = n then some sh else none) = _
    rw [ih]
    cases h : lastWrite b n <;> cases h2 : lastWrite rest n <;> simp [lastWrite, h, h2]

theorem lastWrite_cons (s : String) (sh : Sheet) (rest : Workbook) (n : String) :
    lastWrite ((s, sh) :: rest) n =
      match lastWrite rest n with
      | some t => some t
      | none => if tableName s = n then some sh else none := rfl

theorem lastWrite_of_nodup {wb : Workbook}
    (hnd : (wb.map fun p => tableName p.1).Nodup) :
    ∀ p ∈ wb, lastWrite wb (tableName p.1) = some p.2 := by
  induction wb with
  | nil => intro p hp; cases hp
  | cons q rest ih =>
    obtain ⟨s, sh⟩ := q
    rw [List.map_cons, List.nodup_cons] at hnd
    intro p hp
    rcases List.mem_cons.mp hp with hp | hp
    · subst hp
      have hnone : lastWrite rest (tableName s) = none :=
        lastWrite_eq_none (fun q hq he => hnd.1 (he ▸ List.mem_map_of_mem _ hq))
      simp [lastWrite_cons, hnone]
    · have := ih hnd.2 p hp
      simp [lastWrite_cons, this]

theorem dbNames_writeAll_nodup (wb : Workbook) {db : Database}
    (h : (dbNames db).Nodup) : (dbNames (writeAll db wb)).Nodup := by
  induction wb generalizing db with
  | nil => exact h
  | cons p rest ih =>
    obtain ⟨s, sh⟩ := p
    rw [writeAll_cons]
    exact ih (dbNames_setTable_nodup _ _ _ h)

theorem mem_dbNames_writeAll (wb : Workbook) {db : Database} {n : String}
    (h : n ∈ dbNames (writeAll db wb)) :
    n ∈ dbNames db ∨ n ∈ wb.map (fun p => tableName p.1) := by
  induction wb generalizing db with
  | nil => exact Or.inl h
  | cons p rest ih =>
    obtain ⟨s, sh⟩ := p
    rw [writeAll_cons] at h
    rcases ih h with h | h
    · rcases mem_dbNames_setTable h with h | h
      · exact Or.inl h
      · exact Or.inr (by simp [h])
    · exact Or.inr (by rw [List.map_cons]; exact List.mem_cons_of_mem _ h)

theorem dbNames_setTable_of_not_mem {db : Database} {n : String} (t : Table)
    (h : n ∉ dbNames db) :
    dbNames (dbSetTable db n t) = dbNames db ++ [n] := by
  rw [dbSetTable_of_not_mem t h]
  simp [dbNames]

theorem writeAll_length_nodup (wb : Workbook) (db : Database)
    (hnd : (wb.map fun p => tableName p.1).Nodup)
    (hdisj : ∀ p ∈ wb, tableName p.1 ∉ dbNames db) :
    (writeAll db wb).length = db.length + wb.length := by
  induction wb generalizing db with
  | nil => simp [writeAll_nil]
  | cons p rest ih =>
    obtain ⟨s, sh⟩ := p
    rw [List.map_cons, List.nodup_cons] at hnd
    have hs : tableName s ∉ dbNames db := hdisj _ (List.mem_cons_self _ _)
    have hdisj2 : ∀ q ∈ rest,
        tableName q.1 ∉ dbNames (dbSetTable db (tableName s) sh) := by
      intro q hq
      rw [dbNames_setTable_of_not_mem sh hs, List.mem_append]
      rintro (hmem | hmem)
      · exact hdisj q (List.mem_cons_of_mem _ hq) hmem
      · simp at hmem
        exact hnd.1 (hmem ▸ List.mem_map_of_mem _ hq)
    rw [writeAll_cons, ih _ hnd.2 hdisj2, dbSetTable_of_not_mem sh hs]
    simp [List.length_append]
    omega

/-! ### Unfolding the entry point -/

theorem main_missing (res : String) (db0 : Option Database)
    (wk : String → Sheet → Bool) :
    XlsxToSql.main ⟨res, .missing⟩ db0 wk =
      { result := .error (.sourceNotFound res), dbFile := db0
        connOpened := false, connClosed := false } := rfl

theorem main_directory (res : String) (db0 : Option Database)
    (wk : String → Sheet → Bool) :
    XlsxToSql.main ⟨res, .directory⟩ db0 wk =
      { result := .error (.sourceNotFound res), dbFile := db0
        connOpened := false, connClosed := false } := rfl

theorem main_parse_fail (res : String) (db0 : Option Database)
    (wk : String → Sheet → Bool) :
    XlsxToSql.main ⟨res, .file none⟩ db0 wk =
      { result := .error .parseFailure, dbFile := db0
        connOpened := false, connClosed := false } := rfl

theorem main_file_some (res : String) (wb : Workbook) (db0 : Option Database)
    (wk : String → Sheet → Bool) :
    XlsxToSql.main ⟨res, .file (some wb)⟩ db0 wk =
      match runSheets wk (db0.getD []) wb with
      | (db1, none) =>
        { result := .ok (), dbFile := some db1
          connOpened := true, connClosed := true }
      | (db1, some s) =>
        { result := .error (.writeFailure s), dbFile := some db1
          connOpened := true, connClosed := true } := rfl

theorem obsEqOpt_refl (a : Option Database) : obsEqOpt a a := by
  cases a <;> simp [obsEqOpt]

theorem pyReplaceChar_eq_map (old new : Char) (l : List Char) :
    pyReplaceChar old new l = l.map (fun c => if c = old then new else c) := by
  induction l with
  | nil => rfl
  | cons c cs ih => simp [pyReplaceChar, ih]

theorem dbLookup_eq_none_of_not_mem {db : Database} {n : String}
    (h : n ∉ dbNames db) : dbLookup db n = none := by
  cases hl : dbLookup db n with
  | none => rfl
  | some t => exact absurd (dbLookup_mem_dbNames hl) h

theorem main_file_dbFile (res : String) (wb : Workbook) (db0 : Option Database)
    (wk : String → Sheet → Bool) :
    (XlsxToSql.main ⟨res, .file (some wb)⟩ db0 wk).dbFile =
      some (writeAll (db0.getD [])
        (wb.takeWhile fun p => wk (tableName p.1) p.2)) := by
  rw [main_file_some, runSheets_eq]
  cases hE : ((wb.dropWhile fun p => wk (tableName p.1) p.2).head?).map Prod.fst <;>
    rfl

/-! ### The claims -/

/-- C2: for every sheet name, the derived table name is exactly the sheet
name with surrounding whitespace trimmed and every space character replaced
by an underscore, and nothing else is changed — `specTableName`, written
from the spec's words, performs no case folding and no escaping, so the
equality states that the code applies no normalization beyond trim and
space-to-underscore. -/
theorem c2_table_name_rule (s : String) : tableName s = specTableName s := by
  unfold tableName specTableName
  rw [pyReplaceChar_eq_map]

/-- C4: when the workbook path does not reference an existing file, the run
fails immediately with a source-not-found error carrying the resolved
absolute path; the database file is neither created nor modified
(`dbFile` stays `db0`) and the connection is never opened. -/
theorem c4_source_not_found (res : String) (db0 : Option Database)
    (wk : String → Sheet → Bool) :
    XlsxToSql.main ⟨res, .missing⟩ db0 wk =
      { result := .error (.sourceNotFound res), dbFile := db0
        connOpened := false, connClosed := false } := rfl

/-- C7: when the input file exists but cannot be parsed as a spreadsheet,
the run reports a parse failure and performs no database writes: the
database file is untouched and the connection is never opened, because
parsing happens strictly before any database interaction. -/
theorem c7_parse_failure (res : String) (db0 : Option Database)
    (wk : String → Sheet → Bool) :
    XlsxToSql.main ⟨res, .file none⟩ db0 wk =
      { result := .error .parseFailure, dbFile := db0
        connOpened := false, connClosed := false } := rfl

/-- C9: when parsing fails and the destination database file did not
previously exist, it is not created: the connection (whose opening is what
creates the file) is only acquired after parsing has succeeded. -/
theorem c9_parse_failure_no_db_created (res : String)
    (wk : String → Sheet → Bool) :
    (XlsxToSql.main ⟨res, .file none⟩ none wk).dbFile = none ∧
    (XlsxToSql.main ⟨res, .file none⟩ none wk).connOpened = false :=
  ⟨rfl, rfl⟩

/-- C10: a path that exists but is not a regular file (e.g. a directory)
behaves exactly like a missing path: the same source-not-found error
carrying the resolved path, and no further action. -/
theorem c10_directory_like_missing (res : String) (db0 : Option Database)
    (wk : String → Sheet → Bool) :
    XlsxToSql.main ⟨res, .directory⟩ db0 wk =
      XlsxToSql.main ⟨res, .missing⟩ db0 wk ∧
    XlsxToSql.main ⟨res, .directory⟩ db0 wk =
      { result := .error (.sourceNotFound res), dbFile := db0
        connOpened := false, connClosed := false } :=
  ⟨rfl, rfl⟩

/-- C5: running the conversion twice in succession yields a database file
observably identical to running it once — every table is fully replaced on
the second run, never duplicated or appended to. -/
theorem c5_idempotent (src : Source) (db0 : Option Database)
    (wk : String → Sheet → Bool) :
    obsEqOpt
      (XlsxToSql.main src ((XlsxToSql.main src db0 wk).dbFile) wk).dbFile
      ((XlsxToSql.main src db0 wk).dbFile) := by
  obtain ⟨res, kind⟩ := src
  cases kind with
  | missing => exact obsEqOpt_refl db0
  | directory => exact obsEqOpt_refl db0
  | file p =>
    cases p with
    | none => exact obsEqOpt_refl db0
    | some wb =>
      rw [main_file_dbFile res wb db0 wk]
      rw [main_file_dbFile res wb _ wk]
      simp only [Option.getD_some]
      show ∀ n, dbLookup _ n = dbLookup _ n
      intro n
      cases hl :
          lastWrite (wb.takeWhile fun p => wk (tableName p.1) p.2) n <;>
        simp [dbLookup_writeAll, hl]

theorem runSheets_snd_none_of_result_ok {res : String} {wb : Workbook}
    {db0 : Option Database} {wk : String → Sheet → Bool}
    (hsucc : (XlsxToSql.main ⟨res, .file (some wb)⟩ db0 wk).result = .ok ()) :
    (runSheets wk (db0.getD []) wb).2 = none := by
  rcases hr : runSheets wk (db0.getD []) wb with ⟨d1, e⟩
  cases e with
  | none => rfl
  | some s =>
    rw [main_file_some, hr] at hsucc
    simp at hsucc

theorem main_file_all_ok (res : String) (wb : Workbook) (db0 : Option Database)
    (wk : String → Sheet → Bool)
    (hok : ∀ p ∈ wb, wk (tableName p.1) p.2 = true) :
    XlsxToSql.main ⟨res, .file (some wb)⟩ db0 wk =
      { result := .ok (), dbFile := some (writeAll (db0.getD []) wb)
        connOpened := true, connClosed := true } := by
  rw [main_file_some, runSheets_all_ok (db0.getD []) hok]

/-- C1 (amended): for a workbook whose derived table names are pairwise
distinct, a successful conversion into an absent database yields exactly one
table per sheet — as many tables as sheets — each named by the
trim+underscore rule and holding exactly that sheet's data; and into any
pre-existing database, each sheet's table is fully overwritten with exactly
that sheet's data (dropped and recreated, never appended to). Without the
distinctness hypothesis the original claim fails: see the counterexample. -/
theorem c1_one_table_per_sheet (res : String) (wb : Workbook)
    (wk : String → Sheet → Bool)
    (hnd : (wb.map fun p => tableName p.1).Nodup)
    (hsucc : (XlsxToSql.main ⟨res, .file (some wb)⟩ none wk).result = .ok ()) :
    (outDb (XlsxToSql.main ⟨res, .file (some wb)⟩ none wk)).length = wb.length ∧
    (∀ p ∈ wb,
      dbLookup (outDb (XlsxToSql.main ⟨res, .file (some wb)⟩ none wk))
        (tableName p.1) = some p.2) ∧
    (∀ db0 : Database, ∀ p ∈ wb,
      dbLookup (outDb (XlsxToSql.main ⟨res, .file (some wb)⟩ (some db0) wk))
        (tableName p.1) = some p.2) := by
  have hok : ∀ p ∈ wb, wk (tableName p.1) p.2 = true :=
    runSheets_ok_of_snd_none (runSheets_snd_none_of_result_ok hsucc)
  refine ⟨?_, ?_, ?_⟩
  · rw [main_file_all_ok res wb none wk hok]
    show (writeAll [] wb).length = wb.length
    rw [writeAll_length_nodup wb [] hnd (by intro p hp; simp [dbNames])]
    simp
  · intro p hp
    rw [main_file_all_ok res wb none wk hok]
    show dbLookup (writeAll [] wb) (tableName p.1) = some p.2
    rw [dbLookup_writeAll, lastWrite_of_nodup hnd p hp]
  · intro db0 p hp
    rw [main_file_all_ok res wb (some db0) wk hok]
    show dbLookup (writeAll db0 wb) (tableName p.1) = some p.2
    rw [dbLookup_writeAll, lastWrite_of_nodup hnd p hp]

/-- C1 counterexample: the claim as stated fails. The workbook with the two
sheets "A B" and "A_B" (both derive the table name "A_B") converts
successfully, yet the resulting database holds 1 table, not one table per
sheet (2). -/
theorem c1_counterexample :
    (XlsxToSql.main
      ⟨"/w/db.xlsx", .file (some [("A B", shA), ("A_B", shB)])⟩
      none wkAll).result = .ok () ∧
    ([("A B", shA), ("A_B", shB)] : Workbook).length = 2 ∧
    (outDb (XlsxToSql.main
      ⟨"/w/db.xlsx", .file (some [("A B", shA), ("A_B", shB)])⟩
      none wkAll)).length = 1 :=
  ⟨rfl, rfl, rfl⟩

/-- C1 witness: the amended theorem applied to the spec's own example, a
workbook with sheets "Sales Data" and "Inventory". -/
theorem c1_one_table_per_sheet_witness :
    (outDb (XlsxToSql.main
      ⟨"/w/db.xlsx", .file (some [("Sales Data", shA), ("Inventory", shB)])⟩
      none wkAll)).length =
      ([("Sales Data", shA), ("Inventory", shB)] : Workbook).length ∧
    (∀ p ∈ ([("Sales Data", shA), ("Inventory", shB)] : Workbook),
      dbLookup (outDb (XlsxToSql.main
        ⟨"/w/db.xlsx", .file (some [("Sales Data", shA), ("Inventory", shB)])⟩
        none wkAll)) (tableName p.1) = some p.2) ∧
    (∀ db0 : Database, ∀ p ∈ ([("Sales Data", shA), ("Inventory", shB)] : Workbook),
      dbLookup (outDb (XlsxToSql.main
        ⟨"/w/db.xlsx", .file (some [("Sales Data", shA), ("Inventory", shB)])⟩
        (some db0) wkAll)) (tableName p.1) = some p.2) :=
  c1_one_table_per_sheet "/w/db.xlsx" [("Sales Data", shA), ("Inventory", shB)]
    wkAll (by decide) rfl

/-- C3: when the writes for the sheets before sheet k all succeed and the
write for sheet k fails, the run raises a write-failure error naming sheet
k; the database file holds exactly the result of writing the earlier sheets
(so the remaining sheets were never processed), every table correctly
written for an earlier sheet is present with its data, no table exists for
sheet k or any later sheet (for any derived name not written earlier and
not pre-existing), and the connection was still closed before the error
surfaced. -/
theorem c3_write_failure (res : String) (pre post : Workbook) (sk : String)
    (shk : Sheet) (db0 : Option Database) (wk : String → Sheet → Bool)
    (hpre : ∀ p ∈ pre, wk (tableName p.1) p.2 = true)
    (hfail : wk (tableName sk) shk = false) :
    XlsxToSql.main ⟨res, .file (some (pre ++ (sk, shk) :: post))⟩ db0 wk =
      { result := .error (.writeFailure sk)
        dbFile := some (writeAll (db0.getD []) pre)
        connOpened := true, connClosed := true } ∧
    (∀ n t, lastWrite pre n = some t →
      dbLookup (writeAll (db0.getD []) pre) n = some t) ∧
    (∀ p ∈ (sk, shk) :: post,
      lastWrite pre (tableName p.1) = none →
      tableName p.1 ∉ dbNames (db0.getD []) →
      dbLookup (writeAll (db0.getD []) pre) (tableName p.1) = none) := by
  refine ⟨?_, ?_, ?_⟩
  · rw [main_file_some,
      runSheets_append_fail (db0.getD []) sk shk post hpre hfail]
  · intro n t h
    rw [dbLookup_writeAll, h]
  · intro p hp h1 h2
    rw [dbLookup_writeAll, h1]
    exact dbLookup_eq_none_of_not_mem h2

/-- C3 witness: a three-sheet workbook where the second sheet's write
fails; the database holds only the first sheet's table, the third sheet is
untouched, and the connection is closed. -/
theorem c3_write_failure_witness :
    XlsxToSql.main
      ⟨"/w/db.xlsx", .file (some ([("Good", shA)] ++ ("Bad", shB) :: [("Later", shC)]))⟩
      none wkBad =
      { result := .error (.writeFailure "Bad")
        dbFile := some (writeAll ((none : Option Database).getD []) [("Good", shA)])
        connOpened := true, connClosed := true } ∧
    (∀ n t, lastWrite [("Good", shA)] n = some t →
      dbLookup (writeAll ((none : Option Database).getD []) [("Good", shA)]) n = some t) ∧
    (∀ p ∈ ("Bad", shB) :: [("Later", shC)],
      lastWrite [("Good", shA)] (tableName p.1) = none →
      tableName p.1 ∉ dbNames ((none : Option Database).getD []) →
      dbLookup (writeAll ((none : Option Database).getD []) [("Good", shA)])
        (tableName p.1) = none) :=
  c3_write_failure "/w/db.xlsx" [("Good", shA)] [("Later", shC)] "Bad" shB
    none wkBad (by decide) (by decide)

/-- C6: for every sheet that is successfully written and not shadowed by a
later sheet with the same derived name, the resulting table has exactly the
sheet's header columns in the same order (no extra index column), exactly
as many rows as the sheet's data rows, and the rows themselves in sheet
order. -/
theorem c6_sheet_contents (res : String) (pre post : Workbook) (s : String)
    (sh : Sheet) (db0 : Option Database) (wk : String → Sheet → Bool)
    (hsucc : (XlsxToSql.main
      ⟨res, .file (some (pre ++ (s, sh) :: post))⟩ db0 wk).result = .ok ())
    (hlater : ∀ q ∈ post, tableName q.1 ≠ tableName s) :
    ∃ t, dbLookup (outDb (XlsxToSql.main
        ⟨res, .file (some (pre ++ (s, sh) :: post))⟩ db0 wk))
        (tableName s) = some t ∧
      t.header = sh.header ∧ t.rows.length = sh.rows.length ∧
      t.rows = sh.rows := by
  have hok := runSheets_ok_of_snd_none (runSheets_snd_none_of_result_ok hsucc)
  rw [main_file_all_ok res _ db0 wk hok]
  refine ⟨sh, ?_, rfl, rfl, rfl⟩
  show dbLookup (writeAll (db0.getD []) (pre ++ (s, sh) :: post))
    (tableName s) = some sh
  have hpost : lastWrite post (tableName s) = none := lastWrite_eq_none hlater
  rw [dbLookup_writeAll, lastWrite_append, lastWrite_cons, hpost]
  simp

/-- C6 witness: a single sheet "Sales Data" with two columns and three rows
comes back from the database with exactly that header and those rows. -/
theorem c6_sheet_contents_witness :
    ∃ t, dbLookup (outDb (XlsxToSql.main
        ⟨"/w/db.xlsx", .file (some (([] : Workbook) ++ ("Sales Data", shC) :: ([] : Workbook)))⟩
        none wkAll)) (tableName "Sales Data") = some t ∧
      t.header = shC.header ∧ t.rows.length = shC.rows.length ∧
      t.rows = shC.rows :=
  c6_sheet_contents "/w/db.xlsx" [] [] "Sales Data" shC none wkAll rfl
    (by simp)

/-- C8: when two distinct sheets derive the same table name (and no other
sheet derives it), a successful conversion into a fresh database leaves
that table name exactly once, holding only the later sheet's data (the
later write replaced the earlier table), and the total table count is
strictly less than the number of sheets. -/
theorem c8_collision (res : String) (pre mid post : Workbook) (si sj : String)
    (shi shj : Sheet) (wk : String → Sheet → Bool)
    (hname : tableName si = tableName sj)
    (hothers : ∀ p ∈ pre ++ mid ++ post, tableName p.1 ≠ tableName sj)
    (hsucc : (XlsxToSql.main
      ⟨res, .file (some (pre ++ (si, shi) :: mid ++ (sj, shj) :: post))⟩
      none wk).result = .ok ()) :
    dbLookup (outDb (XlsxToSql.main
        ⟨res, .file (some (pre ++ (si, shi) :: mid ++ (sj, shj) :: post))⟩
        none wk)) (tableName sj) = some shj ∧
    (dbNames (outDb (XlsxToSql.main
        ⟨res, .file (some (pre ++ (si, shi) :: mid ++ (sj, shj) :: post))⟩
        none wk))).count (tableName sj) = 1 ∧
    (outDb (XlsxToSql.main
        ⟨res, .file (some (pre ++ (si, shi) :: mid ++ (sj, shj) :: post))⟩
        none wk)).length <
      (pre ++ (si, shi) :: mid ++ (sj, shj) :: post).length := by
  have hok := runSheets_ok_of_snd_none (runSheets_snd_none_of_result_ok hsucc)
  rw [main_file_all_ok res _ none wk hok]
  have hpost : lastWrite post (tableName sj) = none :=
    lastWrite_eq_none (fun q hq =>
      hothers q (List.mem_append.mpr (Or.inr hq)))
  have hall : lastWrite (pre ++ (si, shi) :: mid ++ (sj, shj) :: post)
      (tableName sj) = some shj := by
    rw [lastWrite_append, lastWrite_cons, hpost]
    simp
  have hlookup : dbLookup (writeAll [] (pre ++ (si, shi) :: mid ++ (sj, shj) :: post))
      (tableName sj) = some shj := by
    rw [dbLookup_writeAll, hall]
  have hnodup : (dbNames (writeAll []
      (pre ++ (si, shi) :: mid ++ (sj, shj) :: post))).Nodup :=
    dbNames_writeAll_nodup _ (by simp [dbNames])
  have hmem : tableName sj ∈ dbNames (writeAll []
      (pre ++ (si, shi) :: mid ++ (sj, shj) :: post)) :=
    dbLookup_mem_dbNames hlookup
  refine ⟨hlookup, List.count_eq_one_of_mem hnodup hmem, ?_⟩
  show (writeAll [] (pre ++ (si, shi) :: mid ++ (sj, shj) :: post)).length <
    (pre ++ (si, shi) :: mid ++ (sj, shj) :: post).length
  have hsubset : ∀ x ∈ dbNames (writeAll []
      (pre ++ (si, shi) :: mid ++ (sj, shj) :: post)),
      x ∈ ((pre ++ (si, shi) :: mid ++ (sj, shj) :: post).map
        fun p => tableName p.1) := by
    intro x hx
    rcases mem_dbNames_writeAll _ hx with h | h
    · simp [dbNames] at h
    · exact h
  have hnotnodup : ¬ ((pre ++ (si, shi) :: mid ++ (sj, shj) :: post).map
      fun p => tableName p.1).Nodup := by
    rw [List.nodup_iff_count_le_one]
    push_neg
    refine ⟨tableName sj, ?_⟩
    have hform : ((pre ++ (si, shi) :: mid ++ (sj, shj) :: post).map
        fun p => tableName p.1) =
        (pre.map fun p => tableName p.1) ++ tableName si ::
          ((mid.map fun p => tableName p.1) ++ tableName sj ::
            (post.map fun p => tableName p.1)) := by
      simp
    rw [hform, hname, List.count_append, List.count_cons_self,
      List.count_append, List.count_cons_self]
    omega
  have hdedup : ((pre ++ (si, shi) :: mid ++ (sj, shj) :: post).map
      fun p => tableName p.1).dedup.length <
      ((pre ++ (si, shi) :: mid ++ (sj, shj) :: post).map
      fun p => tableName p.1).length := by
    have hsub2 := List.dedup_sublist ((pre ++ (si, shi) :: mid ++ (sj, shj) :: post).map
      fun p => tableName p.1)
    rcases Nat.eq_or_lt_of_le hsub2.length_le with h | h
    · exact absurd (List.dedup_eq_self.mp (hsub2.eq_of_length h)) hnotnodup
    · exact h
  calc (writeAll [] (pre ++ (si, shi) :: mid ++ (sj, shj) :: post)).length
      = (dbNames (writeAll []
          (pre ++ (si, shi) :: mid ++ (sj, shj) :: post))).length := by
        simp [dbNames]
    _ = (dbNames (writeAll []
          (pre ++ (si, shi) :: mid ++ (sj, shj) :: post))).toFinset.card :=
        (List.toFinset_card_of_nodup hnodup).symm
    _ ≤ (((pre ++ (si, shi) :: mid ++ (sj, shj) :: post).map
          fun p => tableName p.1)).toFinset.card := by
        apply Finset.card_le_card
        intro x hx
        rw [List.mem_toFinset] at hx ⊢
        exact hsubset x hx
    _ = (((pre ++ (si, shi) :: mid ++ (sj, shj) :: post).map
          fun p => tableName p.1)).dedup.length := List.card_toFinset _
    _ < (((pre ++ (si, shi) :: mid ++ (sj, shj) :: post).map
          fun p => tableName p.1)).length := hdedup
    _ = (pre ++ (si, shi) :: mid ++ (sj, shj) :: post).length := by simp

/-- C8 witness: the two-sheet workbook with sheets "A B" and "A_B"
(one derived name "A_B"): the database holds "A_B" once with the later
sheet's data, and 1 table for 2 sheets. -/
theorem c8_collision_witness :
    dbLookup (outDb (XlsxToSql.main
        ⟨"/w/db.xlsx", .file (some (([] : Workbook) ++ ("A B", shA) :: ([] : Workbook) ++ ("A_B", shB) :: ([] : Workbook)))⟩
        none wkAll)) (tableName "A_B") = some shB ∧
    (dbNames (outDb (XlsxToSql.main
        ⟨"/w/db.xlsx", .file (some (([] : Workbook) ++ ("A B", shA) :: ([] : Workbook) ++ ("A_B", shB) :: ([] : Workbook)))⟩
        none wkAll))).count (tableName "A_B") = 1 ∧
    (outDb (XlsxToSql.main
        ⟨"/w/db.xlsx", .file (some (([] : Workbook) ++ ("A B", shA) :: ([] : Workbook) ++ ("A_B", shB) :: ([] : Workbook)))⟩
        none wkAll)).length <
      (([] : Workbook) ++ ("A B", shA) :: ([] : Workbook) ++ ("A_B", shB) :: ([] : Workbook)).length :=
  c8_collision "/w/db.xlsx" [] [] [] "A B" "A_B" shA shB wkAll (by decide)
    (by simp) rfl
